import Mathlib

/-
Verification of the two non-trivial components of `pyrevit/coreutils/__init__.py`:

* `ScriptFileParser` — parses a script file into a syntax tree once and answers
  queries for the literal value assigned to a named top-level variable
  (`extract_param`), wrapping every failure in a `PyRevitException` message.

* `calculate_dir_hash` — walks a directory tree with `os.walk`, sums the
  modification times of directories whose base name matches `dir_filter`
  (case-insensitive regex search) and of the files directly inside them whose
  name matches `file_filter`, and returns `get_str_hash(str(mtime_sum))`, the
  MD5 hex digest of the decimal string of the sum.

The embedding below translates these functions and the pieces of the platform
they rest on (MD5 via `hashlib`, UTF-8 encoding, `re.search` with
`re.IGNORECASE` restricted to metacharacter-free patterns, the Python AST
fragment that `ast.iter_child_nodes` and `ast.literal_eval` observe, and `os.walk`
with its default `onerror=None` error swallowing).  Modification times are
modelled as exact natural numbers.
-/

set_option autoImplicit false
set_option maxRecDepth 10000

namespace PyRevit

/-! ### MD5, modelling `hashlib.md5(source_str.encode('utf-8')).hexdigest()` -/

/-- UTF-8 encoding of a single character as a list of byte values. -/
def utf8Bytes (c : Char) : List Nat :=
  let n := c.toNat
  if n < 128 then [n]
  else if n < 2048 then [192 + n / 64, 128 + n % 64]
  else if n < 65536 then [224 + n / 4096, 128 + (n / 64) % 64, 128 + n % 64]
  else [240 + n / 262144, 128 + (n / 4096) % 64, 128 + (n / 64) % 64, 128 + n % 64]

/-- UTF-8 encoding of a string as a list of byte values (`str.encode('utf-8')`). -/
def strBytes (s : String) : List Nat :=
  (s.data.map utf8Bytes).flatten

/-- Bitwise complement on 32-bit words represented as naturals below `2^32`. -/
def not32 (x : Nat) : Nat := 4294967295 - x % 4294967296

/-- Left rotation of a 32-bit word (input assumed reduced modulo `2^32`). -/
def rotl32 (x s : Nat) : Nat := (x <<< s) % 4294967296 + x >>> (32 - s)

/-- The 64 MD5 sine-derived round constants of RFC 1321. -/
def mdK : List Nat :=
  [0xd76aa478, 0xe8c7b756, 0x242070db, 0xc1bdceee,
   0xf57c0faf, 0x4787c62a, 0xa8304613, 0xfd469501,
   0x698098d8, 0x8b44f7af, 0xffff5bb1, 0x895cd7be,
   0x6b901122, 0xfd987193, 0xa679438e, 0x49b40821,
   0xf61e2562, 0xc040b340, 0x265e5a51, 0xe9b6c7aa,
   0xd62f105d, 0x02441453, 0xd8a1e681, 0xe7d3fbc8,
   0x21e1cde6, 0xc33707d6, 0xf4d50d87, 0x455a14ed,
   0xa9e3e905, 0xfcefa3f8, 0x676f02d9, 0x8d2a4c8a,
   0xfffa3942, 0x8771f681, 0x6d9d6122, 0xfde5380c,
   0xa4beea44, 0x4bdecfa9, 0xf6bb4b60, 0xbebfbc70,
   0x289b7ec6, 0xeaa127fa, 0xd4ef3085, 0x04881d05,
   0xd9d4d039, 0xe6db99e5, 0x1fa27cf8, 0xc4ac5665,
   0xf4292244, 0x432aff97, 0xab9423a7, 0xfc93a039,
   0x655b59c3, 0x8f0ccc92, 0xffeff47d, 0x85845dd1,
   0x6fa87e4f, 0xfe2ce6e0, 0xa3014314, 0x4e0811a1,
   0xf7537e82, 0xbd3af235, 0x2ad7d2bb, 0xeb86d391]

/-- The 64 MD5 per-round left-rotation amounts. -/
def mdS : List Nat :=
  [7, 12, 17, 22, 7, 12, 17, 22, 7, 12, 17, 22, 7, 12, 17, 22,
   5, 9, 14, 20, 5, 9, 14, 20, 5, 9, 14, 20, 5, 9, 14, 20,
   4, 11, 16, 23, 4, 11, 16, 23, 4, 11, 16, 23, 4, 11, 16, 23,
   6, 10, 15, 21, 6, 10, 15, 21, 6, 10, 15, 21, 6, 10, 15, 21]

/-- Eight-byte little-endian encoding of the bit length for MD5 padding. -/
def leBytes8 (n : Nat) : List Nat :=
  [n % 256, (n / 256) % 256, (n / 65536) % 256, (n / 16777216) % 256,
   (n / 4294967296) % 256, (n / 1099511627776) % 256,
   (n / 281474976710656) % 256, (n / 72057594037927936) % 256]

/-- MD5 padding: append `0x80`, zero bytes up to 56 mod 64, then the bit length. -/
def md5pad (msg : List Nat) : List Nat :=
  msg ++ 128 :: (List.replicate ((119 - msg.length % 64) % 64) 0 ++ leBytes8 (msg.length * 8))

/-- Group a byte list into little-endian 32-bit words. -/
def toWords : List Nat → List Nat
  | b0 :: b1 :: b2 :: b3 :: rest =>
    (b0 + 256 * b1 + 65536 * b2 + 16777216 * b3) :: toWords rest
  | _ => []

/-- Helper for block splitting, structurally recursive on the byte list:
`k` counts the bytes still missing from the current block, `cur` holds the
current block's bytes in reverse. -/
def chunkAux (k : Nat) (cur : List Nat) : List Nat → List (List Nat)
  | [] => if cur.isEmpty then [] else [cur.reverse]
  | b :: rest =>
    if k ≤ 1 then (b :: cur).reverse :: chunkAux 64 [] rest
    else chunkAux (k - 1) (b :: cur) rest

/-- Split a byte list into 64-byte blocks. -/
def chunks64 (l : List Nat) : List (List Nat) :=
  chunkAux 64 [] l

/-- One MD5 round: round function, message index, add, rotate, shuffle. -/
def md5round (M : List Nat) (st : Nat × Nat × Nat × Nat) (i : Nat) :
    Nat × Nat × Nat × Nat :=
  let a := st.1
  let b := st.2.1
  let c := st.2.2.1
  let d := st.2.2.2
  let fg : Nat × Nat :=
    if i < 16 then ((b &&& c) ||| (not32 b &&& d), i)
    else if i < 32 then ((d &&& b) ||| (not32 d &&& c), (5 * i + 1) % 16)
    else if i < 48 then (b ^^^ c ^^^ d, (3 * i + 5) % 16)
    else (c ^^^ (b ||| not32 d), (7 * i) % 16)
  let fv := (fg.1 + a + mdK.getD i 0 + M.getD fg.2 0) % 4294967296
  (d, (b + rotl32 fv (mdS.getD i 0)) % 4294967296, b, c)

/-- Process one 64-byte block (given as 16 words) into the running MD5 state. -/
def md5block (st : Nat × Nat × Nat × Nat) (M : List Nat) : Nat × Nat × Nat × Nat :=
  let r := (List.range 64).foldl (md5round M) st
  ((st.1 + r.1) % 4294967296, (st.2.1 + r.2.1) % 4294967296,
   (st.2.2.1 + r.2.2.1) % 4294967296, (st.2.2.2 + r.2.2.2) % 4294967296)

/-- MD5 initial state. -/
def md5init : Nat × Nat × Nat × Nat := (0x67452301, 0xefcdab89, 0x98badcfe, 0x10325476)

/-- MD5 state after absorbing a whole (padded) message. -/
def md5state (bytes : List Nat) : Nat × Nat × Nat × Nat :=
  ((chunks64 (md5pad bytes)).map toWords).foldl md5block md5init

/-- Little-endian byte decomposition of a 32-bit word. -/
def wordLEBytes (w : Nat) : List Nat :=
  [w % 256, (w / 256) % 256, (w / 65536) % 256, (w / 16777216) % 256]

/-- The sixteen digest bytes of the MD5 of a byte string. -/
def md5digestBytes (bytes : List Nat) : List Nat :=
  let st := md5state bytes
  wordLEBytes st.1 ++ wordLEBytes st.2.1 ++ wordLEBytes st.2.2.1 ++ wordLEBytes st.2.2.2

/-- Lower-case hexadecimal digit for a value below 16. -/
def hexDigit (n : Nat) : Char :=
  if n < 10 then Char.ofNat (48 + n) else Char.ofNat (87 + n)

/-- Two lower-case hex characters for one byte. -/
def byteHex (b : Nat) : List Char :=
  [hexDigit (b / 16), hexDigit (b % 16)]

/-- Lower-case hex string of a byte list (`hexdigest`). -/
def bytesToHex (bs : List Nat) : String :=
  ⟨(bs.map byteHex).flatten⟩

/-- Translation of `get_str_hash`: MD5 hex digest of the UTF-8 encoding. -/
def get_str_hash (source_str : String) : String :=
  bytesToHex (md5digestBytes (strBytes source_str))

/-! ### Case-insensitive search, modelling `re.search(pat, s, re.IGNORECASE)`
for pattern strings that contain no regex metacharacters (the callers of
`calculate_dir_hash` pass plain name fragments): the pattern matches if it
occurs, case-insensitively, anywhere in the subject string. -/

/-- Lower-case a character list. -/
def lowerChars (l : List Char) : List Char := l.map Char.toLower

/-- Whether `pat` occurs at the head of `l`. -/
def headMatches : List Char → List Char → Bool
  | [], _ => true
  | _ :: _, [] => false
  | p :: ps, x :: xs => p == x && headMatches ps xs

/-- Whether `pat` occurs anywhere (contiguously) in `l`. -/
def containsSeq (pat : List Char) : List Char → Bool
  | [] => headMatches pat []
  | x :: xs => headMatches pat (x :: xs) || containsSeq pat xs

/-- Translation of `re.search(pat, s, flags=re.IGNORECASE) is not None` for a
metacharacter-free pattern: case-insensitive substring search, matching
anywhere in the subject (search, not full-match, semantics). -/
def reSearchIgnoreCase (pat s : String) : Bool :=
  containsSeq (lowerChars pat.data) (lowerChars s.data)

/-! ### The Python AST fragment seen by `ScriptFileParser`

`extract_param` looks only at the direct children of the `Module` node
(`ast.iter_child_nodes`), keeps the ones that have a `targets` attribute
(`Assign` and `Delete` nodes), checks each target for an `id` attribute
(only `Name` nodes have one), and runs `ast.literal_eval` on the node's
`value`.  Expressions are a mutual inductive so that `literal_eval` is
structurally recursive. -/

mutual
inductive PyExpr where
  | name (id : String)
  | numInt (n : Int)
  | strLit (s : String)
  | listE (elts : PyExprList)
  | tupleE (elts : PyExprList)
  | call (func : PyExpr) (args : PyExprList)
inductive PyExprList where
  | nil
  | cons (e : PyExpr) (es : PyExprList)
end

/-- Python runtime values that `ast.literal_eval` can produce on this fragment. -/
inductive PyValue where
  | intV (n : Int)
  | strV (s : String)
  | boolV (b : Bool)
  | noneV
  | listV (xs : List PyValue)
  | tupleV (xs : List PyValue)

/-- Top-level Python statements.  Of these, only `assign` and `delete` carry a
`targets` attribute; `funcDef`, `classDef`, `ifStmt` and `exprStmt` bodies are
opaque to `extract_param` because `ast.iter_child_nodes` does not descend. -/
inductive PyStmt where
  | assign (targets : List PyExpr) (value : PyExpr)
  | delete (targets : List PyExpr)
  | funcDef (fname : String) (body : List PyStmt)
  | classDef (cname : String) (body : List PyStmt)
  | ifStmt (cond : PyExpr) (body orelse : List PyStmt)
  | exprStmt (e : PyExpr)

mutual
/-- Translation of Python 2.7 `ast.literal_eval` on this fragment: string and
number literals, lists and tuples of literals, and the names `True`, `False`
and `None`; anything else (calls, other name references) raises
`ValueError('malformed string')`. -/
def literal_eval : PyExpr → Except String PyValue
  | .strLit s => .ok (.strV s)
  | .numInt n => .ok (.intV n)
  | .tupleE xs => match evalElems xs with
    | .ok vs => .ok (.tupleV vs)
    | .error e => .error e
  | .listE xs => match evalElems xs with
    | .ok vs => .ok (.listV vs)
    | .error e => .error e
  | .name id =>
    if id == "True" then .ok (.boolV true)
    else if id == "False" then .ok (.boolV false)
    else if id == "None" then .ok .noneV
    else .error "malformed string"
  | .call _ _ => .error "malformed string"
/-- Left-to-right literal evaluation of collection elements; the first failure
propagates. -/
def evalElems : PyExprList → Except String (List PyValue)
  | .nil => .ok []
  | .cons e es => match literal_eval e with
    | .error er => .error er
    | .ok v => match evalElems es with
      | .error er => .error er
      | .ok vs => .ok (v :: vs)
end

/-- The test `hasattr(target, 'id') and target.id == param_name`, applied to
each element of a node's `targets` list: only `Name` targets have an `id`. -/
def targetsMatch (targets : List PyExpr) (p : String) : Bool :=
  targets.any fun t => match t with
    | .name id => id == p
    | _ => false

/-- Whether a top-level statement has a `targets` attribute containing a
`Name` target equal to `p` — i.e. whether `extract_param` stops at it. -/
def stmtHasMatchingTarget (p : String) : PyStmt → Bool
  | .assign targets _ => targetsMatch targets p
  | .delete targets => targetsMatch targets p
  | _ => false

/-- Whether some top-level statement is an `Assign` with a `Name` target `p`. -/
def hasAssignTo (p : String) (stmts : List PyStmt) : Bool :=
  stmts.any fun s => match s with
    | .assign targets _ => targetsMatch targets p
    | _ => false

/-- A constructed `ScriptFileParser`: the file path it was given and the
immutable syntax tree (the `Module` body) built once by `ast.parse`. -/
structure ScriptFileParser where
  file_addr : String
  ast_tree : List PyStmt

/-- Translation of `ScriptFileParser.__init__`: open and read the file, parse
its text, and wrap ANY exception (I/O or syntax) in the single
`PyRevitException` message `'Error parsing script file: {file} | {err}'`.
The file system (`open(...).read()`) and `ast.parse` are passed as functions,
each returning either a result or the text of the exception it raises. -/
def ScriptFileParser.init (readFile : String → Except String String)
    (astParse : String → Except String (List PyStmt))
    (file_address : String) : Except String ScriptFileParser :=
  match readFile file_address with
  | .error err => .error ("Error parsing script file: " ++ file_address ++ " | " ++ err)
  | .ok text =>
    match astParse text with
    | .error err => .error ("Error parsing script file: " ++ file_address ++ " | " ++ err)
    | .ok tree => .ok { file_addr := file_address, ast_tree := tree }

/-- The loop body of `extract_param`: scan the top-level statements in order;
at the FIRST statement whose `targets` contain a `Name` equal to `param_name`,
return `ast.literal_eval(child.value)` — for a `Delete` node the attribute
access `child.value` itself raises.  Falling off the loop returns Python
`None`. -/
def extract_param_scan (p : String) : List PyStmt → Except String PyValue
  | [] => .ok .noneV
  | stmt :: rest =>
    match stmt with
    | .assign targets value =>
      if targetsMatch targets p then literal_eval value
      else extract_param_scan p rest
    | .delete targets =>
      if targetsMatch targets p then
        .error "'Delete' object has no attribute 'value'"
      else extract_param_scan p rest
    | _ => extract_param_scan p rest

/-- Translation of `ScriptFileParser.extract_param`: run the scan under the
`try` block; any exception is re-raised as the `PyRevitException` message
`'Error parsing parameter: {p} in script file for : {file} | {err}'`. -/
def ScriptFileParser.extract_param (sp : ScriptFileParser) (param_name : String) :
    Except String PyValue :=
  match extract_param_scan param_name sp.ast_tree with
  | .ok v => .ok v
  | .error err =>
    .error ("Error parsing parameter: " ++ param_name ++ " in script file for : "
      ++ sp.file_addr ++ " | " ++ err)

/-! ### The directory fingerprinter `calculate_dir_hash`

A directory is its base name, the result of `op.getmtime` on it, and the
result of `os.listdir`-style listing: either an OS error, or the files
directly inside (each with its own `op.getmtime` result) together with the
subdirectories.  `Except Unit` stands for a raised `OSError` (its message is
never inspected).  `os.walk` is called with its default `onerror=None`, so a
directory whose listing fails is silently skipped, subtree included, while
`op.getmtime` is called outside any handler, so its error propagates. -/

mutual
inductive DirNode where
  | mk (name : String) (mtime : Except Unit Nat) (listing : DirListing)
inductive DirListing where
  | err
  | entries (files : List (String × Except Unit Nat)) (subs : DirForest)
inductive DirForest where
  | nil
  | cons (d : DirNode) (ds : DirForest)
end

/-- One triple yielded by `os.walk` as consumed by `calculate_dir_hash`: the
base name of `root`, the `getmtime` result for `root`, and the `files` list
with each file's `getmtime` result. -/
structure WalkEntry where
  rootBase : String
  rootMtime : Except Unit Nat
  files : List (String × Except Unit Nat)

mutual
/-- The sequence of triples `os.walk(dir_path)` yields, top-down: the
directory itself first (unless its listing raises, in which case the default
`onerror=None` drops the whole subtree), then its subdirectories in order. -/
def walkEntries : DirNode → List WalkEntry
  | .mk _ _ .err => []
  | .mk n m (.entries fs subs) => ⟨n, m, fs⟩ :: walkForest subs
def walkForest : DirForest → List WalkEntry
  | .nil => []
  | .cons d ds => walkEntries d ++ walkForest ds
end

/-- The inner file loop body: `if re.search(file_filter, filename, re.IGNORECASE):
mtime_sum += op.getmtime(op.join(root, filename))`. -/
def stepFile (ff : String) (acc : Nat) (fp : String × Except Unit Nat) :
    Except Unit Nat :=
  if reSearchIgnoreCase ff fp.1 then
    match fp.2 with
    | .error e => .error e
    | .ok m => .ok (acc + m)
  else .ok acc

/-- Sequential run of the file loop over a `files` list. -/
def foldFiles (ff : String) (acc : Nat) : List (String × Except Unit Nat) →
    Except Unit Nat
  | [] => .ok acc
  | fp :: rest =>
    match stepFile ff acc fp with
    | .error e => .error e
    | .ok a => foldFiles ff a rest

/-- The outer loop body for one walk triple: if the base name of `root`
matches `dir_filter`, add `op.getmtime(root)` (whose error propagates) and run
the file loop; otherwise leave the sum unchanged. -/
def stepEntry (df ff : String) (acc : Nat) (e : WalkEntry) : Except Unit Nat :=
  if reSearchIgnoreCase df e.rootBase then
    match e.rootMtime with
    | .error er => .error er
    | .ok m => foldFiles ff (acc + m) e.files
  else .ok acc

/-- Sequential run of the outer loop over the walk triples. -/
def foldEntries (df ff : String) (acc : Nat) : List WalkEntry → Except Unit Nat
  | [] => .ok acc
  | e :: rest =>
    match stepEntry df ff acc e with
    | .error er => .error er
    | .ok a => foldEntries df ff a rest

/-- The accumulated `mtime_sum` of `calculate_dir_hash`, starting at `0`. -/
def dirHashSum (df ff : String) (entries : List WalkEntry) : Except Unit Nat :=
  foldEntries df ff 0 entries

/-- Translation of `calculate_dir_hash(dir_path, dir_filter, file_filter)`:
walk the tree, accumulate `mtime_sum`, and return
`get_str_hash(str(mtime_sum))`; an uncaught `OSError` from `getmtime`
propagates as `.error`. -/
def calculate_dir_hash (dir_path : DirNode) (dir_filter file_filter : String) :
    Except Unit String :=
  match dirHashSum dir_filter file_filter (walkEntries dir_path) with
  | .error e => .error e
  | .ok s => .ok (get_str_hash (toString s))

/-! ### Spec-side description of the fingerprint sum, for refinement -/

/-- Whether an `Except` result is a success. -/
def exIsOk {α : Type} (e : Except Unit α) : Bool :=
  match e with
  | .ok _ => true
  | .error _ => false

/-- The success value of an `Except`, with a default. -/
def exGetD (e : Except Unit Nat) : Nat :=
  match e with
  | .ok v => v
  | .error _ => 0

/-- Whether every `getmtime` result of a walk triple is a success. -/
def entryOk (e : WalkEntry) : Bool :=
  exIsOk e.rootMtime && e.files.all fun fp => exIsOk fp.2

/-- Modelled from the spec: the timestamps contributed by the files directly
inside one matching directory ("for every file directly inside it whose name
case-insensitively matches `fileNamePattern`, add that file's last-modified
timestamp"). -/
def specFilesSum (ff : String) : List (String × Except Unit Nat) → Nat
  | [] => 0
  | fp :: rest =>
    (if reSearchIgnoreCase ff fp.1 then exGetD fp.2 else 0) + specFilesSum ff rest

/-- The total contribution of one walk triple to the spec-side sum. -/
def entrySpec (df ff : String) (e : WalkEntry) : Nat :=
  if reSearchIgnoreCase df e.rootBase then exGetD e.rootMtime + specFilesSum ff e.files
  else 0

/-- Spec-side sum over a list of walk triples. -/
def entriesSpec (df ff : String) : List WalkEntry → Nat
  | [] => 0
  | e :: rest => entrySpec df ff e + entriesSpec df ff rest

mutual
/-- Whether a tree is free of I/O errors: every listing succeeds and every
`getmtime` succeeds. -/
def errFreeDir : DirNode → Bool
  | .mk _ _ .err => false
  | .mk _ m (.entries fs subs) =>
    exIsOk m && (fs.all fun fp => exIsOk fp.2) && errFreeForest subs
def errFreeForest : DirForest → Bool
  | .nil => true
  | .cons d ds => errFreeDir d && errFreeForest ds
end

mutual
/-- Modelled from the spec: "For every visited directory whose base name
case-insensitively matches `dirNamePattern` ... add that directory's
last-modified timestamp ... then for every file directly inside it whose name
case-insensitively matches `fileNamePattern`, add that file's last-modified
timestamp ...  Directories not matching the pattern are still descended
into."  The recursion visits every subdirectory unconditionally; the pattern
only gates the contribution. -/
def specDirSum (df ff : String) : DirNode → Nat
  | .mk _ _ .err => 0
  | .mk n m (.entries fs subs) =>
    (if reSearchIgnoreCase df n then exGetD m + specFilesSum ff fs else 0)
      + specForestSum df ff subs
def specForestSum (df ff : String) : DirForest → Nat
  | .nil => 0
  | .cons d ds => specDirSum df ff d + specForestSum df ff ds
end

/-! ### IEEE binary64 accumulation, for the order-independence question

In the source, `op.getmtime` returns an IEEE double and `mtime_sum += ...`
sums doubles.  The model below translates binary64 addition faithfully on the
subdomain the counterexample needs: nonnegative integer-valued doubles (every
whole-second timestamp).  For such operands the IEEE result is the exact
integer sum rounded to the nearest representable double, ties to even — which
`round64` computes exactly.  Double addition is commutative but NOT
associative, so the source's running float sum is not invariant under
traversal order in general. -/

/-- Bit length of a natural number, structurally recursive on a fuel argument
that covers every finite binary64 magnitude. -/
def bitLenAux : Nat → Nat → Nat
  | 0, _ => 0
  | fuel + 1, n => if n = 0 then 0 else bitLenAux fuel (n / 2) + 1

/-- Bit length of a natural number below `2^1100` (all finite doubles). -/
def bitLen (n : Nat) : Nat := bitLenAux 1100 n

/-- Round a nonnegative integer to the nearest integer-valued binary64
(53-bit significand), ties to even: integers below `2^53` are exact; above,
the value is rounded to the nearest multiple of `2^(bitLen n - 53)`. -/
def round64 (n : Nat) : Nat :=
  if n < 9007199254740992 then n
  else
    let k := bitLen n - 53
    let q := n / 2 ^ k
    let r := n % 2 ^ k
    let half := 2 ^ (k - 1)
    let q2 := if half < r ∨ (r = half ∧ q % 2 = 1) then q + 1 else q
    q2 * 2 ^ k

/-- IEEE binary64 addition of nonnegative integer-valued doubles: exact sum,
then round to nearest, ties to even.  This is the `mtime_sum += mtime` step
of the source for whole-second timestamps. -/
def fpAddN (x y : Nat) : Nat := round64 (x + y)

/-- One walk triple with (integer-valued) float timestamps and no I/O errors,
for the float-accumulation model. -/
structure WalkEntryF where
  rootBase : String
  rootMtime : Nat
  files : List (String × Nat)
deriving DecidableEq

/-- The file loop body of `calculate_dir_hash` under float accumulation. -/
def stepFileF (ff : String) (acc : Nat) (fp : String × Nat) : Nat :=
  if reSearchIgnoreCase ff fp.1 then fpAddN acc fp.2 else acc

/-- The file loop of `calculate_dir_hash` under float accumulation. -/
def foldFilesF (ff : String) (acc : Nat) : List (String × Nat) → Nat
  | [] => acc
  | fp :: rest => foldFilesF ff (stepFileF ff acc fp) rest

/-- The outer loop body of `calculate_dir_hash` under float accumulation. -/
def stepEntryF (df ff : String) (acc : Nat) (e : WalkEntryF) : Nat :=
  if reSearchIgnoreCase df e.rootBase then foldFilesF ff (fpAddN acc e.rootMtime) e.files
  else acc

/-- The outer loop of `calculate_dir_hash` under float accumulation. -/
def foldEntriesF (df ff : String) (acc : Nat) : List WalkEntryF → Nat
  | [] => acc
  | e :: rest => foldEntriesF df ff (stepEntryF df ff acc e) rest

/-- The accumulated float `mtime_sum` over a list of walk triples. -/
def dirHashSumF (df ff : String) (l : List WalkEntryF) : Nat :=
  foldEntriesF df ff 0 l

/-! ### Lemmas about the fingerprint fold -/

/-- Add `a` to the success value of an `Except` result. -/
def shiftOk (a : Nat) : Except Unit Nat → Except Unit Nat
  | .error e => .error e
  | .ok v => .ok (a + v)

/-- The file loop body only ever adds to the accumulator. -/
theorem stepFile_shift (ff : String) (a : Nat) (fp : String × Except Unit Nat) :
    stepFile ff a fp = shiftOk a (stepFile ff 0 fp) := by
  unfold stepFile
  by_cases h : reSearchIgnoreCase ff fp.1
  · simp only [h, if_true]
    cases fp.2 <;> simp [shiftOk]
  · simp [h, shiftOk]

/-- The file loop only ever adds to the accumulator. -/
theorem foldFiles_shift (ff : String) (a : Nat) (fs : List (String × Except Unit Nat)) :
    foldFiles ff a fs = shiftOk a (foldFiles ff 0 fs) := by
  induction fs generalizing a with
  | nil => simp [foldFiles, shiftOk]
  | cons fp rest ih =>
    simp only [foldFiles]
    rw [stepFile_shift]
    cases h : stepFile ff 0 fp with
    | error e => simp [shiftOk]
    | ok v =>
      simp only [shiftOk, Nat.zero_add]
      rw [ih (a + v), ih v]
      cases foldFiles ff 0 rest <;> simp [shiftOk, Nat.add_assoc]

/-- The outer loop body only ever adds to the accumulator. -/
theorem stepEntry_shift (df ff : String) (a : Nat) (e : WalkEntry) :
    stepEntry df ff a e = shiftOk a (stepEntry df ff 0 e) := by
  unfold stepEntry
  by_cases h : reSearchIgnoreCase df e.rootBase
  · simp only [h, if_true]
    cases e.rootMtime with
    | error er => simp [shiftOk]
    | ok m =>
      show foldFiles ff (a + m) e.files = shiftOk a (foldFiles ff (0 + m) e.files)
      rw [foldFiles_shift ff (a + m), foldFiles_shift ff (0 + m)]
      cases foldFiles ff 0 e.files <;> simp [shiftOk, Nat.add_assoc]
  · simp [h, shiftOk]

/-- The outer loop only ever adds to the accumulator. -/
theorem foldEntries_shift (df ff : String) (a : Nat) (l : List WalkEntry) :
    foldEntries df ff a l = shiftOk a (foldEntries df ff 0 l) := by
  induction l generalizing a with
  | nil => simp [foldEntries, shiftOk]
  | cons e rest ih =>
    simp only [foldEntries]
    rw [stepEntry_shift]
    cases h : stepEntry df ff 0 e with
    | error er => simp [shiftOk]
    | ok v =>
      simp only [shiftOk, Nat.zero_add]
      rw [ih (a + v), ih v]
      cases foldEntries df ff 0 rest <;> simp [shiftOk, Nat.add_assoc]

/-- The outer loop distributes over appending walk entry lists. -/
theorem foldEntries_append (df ff : String) (a : Nat) (l1 l2 : List WalkEntry) :
    foldEntries df ff a (l1 ++ l2) =
      (match foldEntries df ff a l1 with
       | .error e => .error e
       | .ok a2 => foldEntries df ff a2 l2) := by
  induction l1 generalizing a with
  | nil => simp [foldEntries]
  | cons e rest ih =>
    simp only [List.cons_append, foldEntries]
    cases stepEntry df ff a e <;> simp [ih]

/-- The file loop over a two-element prefix, in closed form. -/
theorem foldFiles_pair (ff : String) (x y : String × Except Unit Nat)
    (l : List (String × Except Unit Nat)) :
    foldFiles ff 0 (y :: x :: l) =
      (match stepFile ff 0 y, stepFile ff 0 x with
       | .error e, _ => .error e
       | .ok _, .error e => .error e
       | .ok vy, .ok vx => foldFiles ff (vy + vx) l) := by
  simp only [foldFiles]
  cases hy : stepFile ff 0 y with
  | error ey => rfl
  | ok vy =>
    simp only [foldFiles]
    rw [stepFile_shift ff vy x]
    cases hx : stepFile ff 0 x with
    | error ex => simp [shiftOk]
    | ok vx => simp [shiftOk]

/-- The sum computed by the file loop is invariant under permuting the file
list: each file's contribution (and whether its `getmtime` error aborts the
loop) does not depend on the accumulator. -/
theorem foldFiles_perm (ff : String) (fs1 fs2 : List (String × Except Unit Nat))
    (h : List.Perm fs1 fs2) : foldFiles ff 0 fs1 = foldFiles ff 0 fs2 := by
  induction h with
  | nil => rfl
  | cons x _ ih =>
    simp only [foldFiles]
    cases hx : stepFile ff 0 x with
    | error e => rfl
    | ok v =>
      show foldFiles ff v _ = foldFiles ff v _
      rw [foldFiles_shift ff v, ih, ← foldFiles_shift]
  | swap x y l =>
    rw [foldFiles_pair ff x y l, foldFiles_pair ff y x l]
    cases hy : stepFile ff 0 y with
    | error ey =>
      cases hx : stepFile ff 0 x with
      | error ex => cases ey; cases ex; rfl
      | ok vx => rfl
    | ok vy =>
      cases hx : stepFile ff 0 x with
      | error ex => rfl
      | ok vx =>
        show foldFiles ff (vy + vx) l = foldFiles ff (vx + vy) l
        rw [Nat.add_comm]
  | trans _ _ ih1 ih2 => exact ih1.trans ih2

/-- The outer loop over a two-element prefix, in closed form. -/
theorem foldEntries_pair (df ff : String) (x y : WalkEntry) (l : List WalkEntry) :
    foldEntries df ff 0 (y :: x :: l) =
      (match stepEntry df ff 0 y, stepEntry df ff 0 x with
       | .error e, _ => .error e
       | .ok _, .error e => .error e
       | .ok vy, .ok vx => foldEntries df ff (vy + vx) l) := by
  simp only [foldEntries]
  cases hy : stepEntry df ff 0 y with
  | error ey => rfl
  | ok vy =>
    simp only [foldEntries]
    rw [stepEntry_shift df ff vy x]
    cases hx : stepEntry df ff 0 x with
    | error ex => simp [shiftOk]
    | ok vx => simp [shiftOk]

/-- The accumulated `mtime_sum` (or the decision to abort on an mtime error)
is invariant under permuting the walk entries: addition commutes and each
entry's contribution is accumulator-independent. -/
theorem foldEntries_perm (df ff : String) (l1 l2 : List WalkEntry)
    (h : List.Perm l1 l2) : foldEntries df ff 0 l1 = foldEntries df ff 0 l2 := by
  induction h with
  | nil => rfl
  | cons x _ ih =>
    simp only [foldEntries]
    cases hx : stepEntry df ff 0 x with
    | error e => rfl
    | ok v =>
      show foldEntries df ff v _ = foldEntries df ff v _
      rw [foldEntries_shift df ff v, ih, ← foldEntries_shift]
  | swap x y l =>
    rw [foldEntries_pair df ff x y l, foldEntries_pair df ff y x l]
    cases hy : stepEntry df ff 0 y with
    | error ey =>
      cases hx : stepEntry df ff 0 x with
      | error ex => cases ey; cases ex; rfl
      | ok vx => rfl
    | ok vy =>
      cases hx : stepEntry df ff 0 x with
      | error ex => rfl
      | ok vx =>
        show foldEntries df ff (vy + vx) l = foldEntries df ff (vx + vy) l
        rw [Nat.add_comm]
  | trans _ _ ih1 ih2 => exact ih1.trans ih2

/-- On a `files` list whose `getmtime` calls all succeed, the file loop
returns the accumulator plus the spec-side file sum. -/
theorem foldFiles_all_ok (ff : String) (a : Nat) (fs : List (String × Except Unit Nat))
    (h : (fs.all fun fp => exIsOk fp.2) = true) :
    foldFiles ff a fs = .ok (a + specFilesSum ff fs) := by
  induction fs generalizing a with
  | nil => simp [foldFiles, specFilesSum]
  | cons fp rest ih =>
    simp only [List.all_cons, Bool.and_eq_true] at h
    obtain ⟨hfp, hrest⟩ := h
    cases hv : fp.2 with
    | error e => rw [hv] at hfp; simp [exIsOk] at hfp
    | ok mv =>
      by_cases hm : reSearchIgnoreCase ff fp.1
      · have hstep : stepFile ff a fp = .ok (a + mv) := by simp [stepFile, hm, hv]
        simp only [foldFiles, hstep]
        rw [ih (a + mv) hrest]
        simp [specFilesSum, hm, hv, exGetD, Nat.add_assoc]
      · have hstep : stepFile ff a fp = .ok a := by simp [stepFile, hm]
        simp only [foldFiles, hstep]
        rw [ih a hrest]
        simp [specFilesSum, hm]

mutual
/-- Running the accumulation over the walk of an error-free tree adds exactly
the spec-side sum of that tree: every directory is visited (matching or not),
matching directories contribute their mtime, and their matching files
contribute theirs. -/
theorem foldWalk_dir (df ff : String) (a : Nat) :
    ∀ t : DirNode, errFreeDir t = true →
      foldEntries df ff a (walkEntries t) = .ok (a + specDirSum df ff t)
  | .mk n m .err, h => by simp [errFreeDir] at h
  | .mk n (.error u) (.entries fs subs), h => by simp [errFreeDir, exIsOk] at h
  | .mk n (.ok mv) (.entries fs subs), h => by
    simp only [errFreeDir, Bool.and_eq_true] at h
    obtain ⟨⟨-, hfs⟩, hsubs⟩ := h
    cases hm : reSearchIgnoreCase df n with
    | true =>
      have hstep : stepEntry df ff a ⟨n, .ok mv, fs⟩
          = .ok ((a + mv) + specFilesSum ff fs) := by
        simp only [stepEntry, hm, if_true]
        exact foldFiles_all_ok ff (a + mv) fs hfs
      simp only [walkEntries, foldEntries, hstep]
      rw [foldWalk_forest df ff ((a + mv) + specFilesSum ff fs) subs hsubs]
      simp only [specDirSum, hm, if_true, exGetD]
      congr 1
      omega
    | false =>
      have hstep : stepEntry df ff a ⟨n, .ok mv, fs⟩ = .ok a := by
        simp [stepEntry, hm]
      simp only [walkEntries, foldEntries, hstep]
      rw [foldWalk_forest df ff a subs hsubs]
      simp only [specDirSum, hm, Bool.false_eq_true, if_false]
      congr 1
      omega
/-- Forest version of `foldWalk_dir`. -/
theorem foldWalk_forest (df ff : String) (a : Nat) :
    ∀ l : DirForest, errFreeForest l = true →
      foldEntries df ff a (walkForest l) = .ok (a + specForestSum df ff l)
  | .nil, _ => by simp [walkForest, foldEntries, specForestSum]
  | .cons d ds, h => by
    simp only [errFreeForest, Bool.and_eq_true] at h
    obtain ⟨hd, hds⟩ := h
    simp only [walkForest]
    rw [foldEntries_append]
    rw [foldWalk_dir df ff a d hd]
    show foldEntries df ff (a + specDirSum df ff d) (walkForest ds)
      = Except.ok (a + specForestSum df ff (DirForest.cons d ds))
    rw [foldWalk_forest df ff (a + specDirSum df ff d) ds hds]
    simp only [specForestSum]
    congr 1
    omega
end

/-- When no visited directory's base name matches `dir_filter`, the loop
leaves the accumulator untouched. -/
theorem foldEntries_no_match (df ff : String) (a : Nat) (l : List WalkEntry)
    (h : ∀ e ∈ l, reSearchIgnoreCase df e.rootBase = false) :
    foldEntries df ff a l = .ok a := by
  induction l with
  | nil => rfl
  | cons e rest ih =>
    have he := h e (List.mem_cons_self e rest)
    have hstep : stepEntry df ff a e = .ok a := by simp [stepEntry, he]
    simp only [foldEntries, hstep]
    exact ih fun e2 h2 => h e2 (List.mem_cons_of_mem e h2)

/-! ### Lemmas about case-insensitive substring search -/

/-- A list is a prefix of itself followed by anything. -/
theorem headMatches_refl (pat r : List Char) : headMatches pat (pat ++ r) = true := by
  induction pat with
  | nil => rfl
  | cons p ps ih => simp [headMatches, ih]

/-- The empty pattern occurs in every subject. -/
theorem containsSeq_nil (l : List Char) : containsSeq [] l = true := by
  cases l <;> simp [containsSeq, headMatches]

/-- A pattern occurs in itself followed by anything. -/
theorem containsSeq_here (pat post : List Char) : containsSeq pat (pat ++ post) = true := by
  cases pat with
  | nil => simpa using containsSeq_nil post
  | cons p ps =>
    have h := headMatches_refl (p :: ps) post
    cases hs : (p :: ps) ++ post with
    | nil => simp at hs
    | cons q qs =>
      rw [hs] at h
      simp [containsSeq, h]

/-- Occurrence is preserved by prepending a character. -/
theorem containsSeq_extend (pat l : List Char) (x : Char)
    (h : containsSeq pat l = true) : containsSeq pat (x :: l) = true := by
  simp [containsSeq, h]

/-- A pattern occurs in any subject that embeds it contiguously. -/
theorem containsSeq_middle (pat pre post : List Char) :
    containsSeq pat (pre ++ (pat ++ post)) = true := by
  induction pre with
  | nil => simpa using containsSeq_here pat post
  | cons x xs ih => simpa using containsSeq_extend pat (xs ++ (pat ++ post)) x ih

/-! ### Claims about the directory fingerprinter -/

/-- C2 counterexample: when listing the root directory raises an I/O error,
`calculate_dir_hash` does NOT fail: `os.walk`'s default `onerror=None`
silently swallows the error, the subtree is skipped, and the best-effort
digest of the untouched sum `0` is returned. -/
theorem c2_counterexample :
    calculate_dir_hash (.mk "lib" (.ok 5) .err) "lib" "py" = .ok (get_str_hash "0") := rfl

/-- C2 (amended): an I/O error while listing a directory is silently ignored
(the unreadable directory and its whole subtree contribute nothing) and a
best-effort digest is returned; only a failure of `getmtime` on a directory
whose name matches `dir_filter` (or on a matching file inside one) aborts the
call, and it propagates as the underlying unwrapped OS error, not as any
wrapping `FingerprintError`. -/
theorem c2_theorem (n : String) (m : Except Unit Nat) (df ff : String)
    (fs : List (String × Except Unit Nat)) (subs : DirForest)
    (hm : reSearchIgnoreCase df n = true) :
    calculate_dir_hash (.mk n m .err) df ff = .ok (get_str_hash "0")
    ∧ calculate_dir_hash (.mk n (.error ()) (.entries fs subs)) df ff = .error () := by
  constructor
  · rfl
  · have hstep : stepEntry df ff 0 ⟨n, .error (), fs⟩ = .error () := by
      simp [stepEntry, hm]
    unfold calculate_dir_hash dirHashSum
    simp only [walkEntries, foldEntries, hstep]

/-- C2 witness: a matching directory name with a failed `getmtime` aborts with
the bare OS error, while a root with an unreadable listing hashes to the
digest of `"0"`. -/
theorem c2_witness :
    calculate_dir_hash (.mk "scripts" (.ok 3) .err) "script" "py" = .ok (get_str_hash "0")
    ∧ calculate_dir_hash (.mk "scripts" (.error ()) (.entries [] .nil)) "script" "py"
      = .error () :=
  c2_theorem "scripts" (.ok 3) "script" "py" [] .nil (by decide)

/-- C3 counterexample: the source accumulates `mtime_sum` in IEEE doubles,
whose addition is commutative but not associative, so the accumulated sum is
NOT independent of visiting order.  Three matching directories with
integer-valued mtimes `2^53`, `1`, `1` (seconds; settable via `os.utime`)
summed in walk order give `2^53` — each `+ 1` rounds back down, ties to even
— while the permuted order gives `2^53 + 2`. -/
theorem c3_counterexample :
    List.Perm
      [WalkEntryF.mk "lib" 9007199254740992 [], WalkEntryF.mk "lib" 1 [],
        WalkEntryF.mk "lib" 1 []]
      [WalkEntryF.mk "lib" 1 [], WalkEntryF.mk "lib" 1 [],
        WalkEntryF.mk "lib" 9007199254740992 []]
    ∧ dirHashSumF "lib" "py"
        [WalkEntryF.mk "lib" 9007199254740992 [], WalkEntryF.mk "lib" 1 [],
          WalkEntryF.mk "lib" 1 []] = 9007199254740992
    ∧ dirHashSumF "lib" "py"
        [WalkEntryF.mk "lib" 1 [], WalkEntryF.mk "lib" 1 [],
          WalkEntryF.mk "lib" 9007199254740992 []] = 9007199254740994
    ∧ (9007199254740992 : Nat) ≠ 9007199254740994 := by
  refine ⟨by decide, by decide, by decide, by decide⟩

/-- C3 (amended): two invocations on an unchanged tree return an identical
digest (immediate here, since the embedded walk is a pure function of the
tree; in the program it holds because `os.walk` enumerates a fixed filesystem
in a fixed order).  The accumulated sum is order-independent when the
timestamps are summed exactly — permuting the walk entries or a `files` list
leaves the exact fold unchanged — and double addition is commutative and
agrees with exact addition below `2^53` (every realistic timestamp), but it
is not associative, so for extreme timestamps the float sum CAN depend on
traversal order (the counterexample). -/
theorem c3_theorem (root : DirNode) (df ff : String)
    (l1 l2 : List WalkEntry) (fs1 fs2 : List (String × Except Unit Nat)) (x y : Nat)
    (h1 : List.Perm l1 l2) (h2 : List.Perm fs1 fs2)
    (hxy : x + y < 9007199254740992) :
    calculate_dir_hash root df ff = calculate_dir_hash root df ff
    ∧ dirHashSum df ff l1 = dirHashSum df ff l2
    ∧ foldFiles ff 0 fs1 = foldFiles ff 0 fs2
    ∧ fpAddN x y = fpAddN y x
    ∧ fpAddN x y = x + y :=
  ⟨rfl, foldEntries_perm df ff l1 l2 h1, foldFiles_perm ff fs1 fs2 h2,
    by unfold fpAddN; rw [Nat.add_comm],
    by unfold fpAddN round64; simp [hxy]⟩

/-- C3 witness: swapping two walk entries, and two files, leaves the exact
sums unchanged on a concrete tree, and float addition of `3` and `4` seconds
is commutative and exact. -/
theorem c3_witness :
    calculate_dir_hash (.mk "lib" (.ok 5) (.entries [] .nil)) "li" "py"
      = calculate_dir_hash (.mk "lib" (.ok 5) (.entries [] .nil)) "li" "py"
    ∧ dirHashSum "li" "py" [⟨"lib", .ok 5, [("a.py", .ok 3)]⟩, ⟨"other", .ok 11, []⟩]
      = dirHashSum "li" "py" [⟨"other", .ok 11, []⟩, ⟨"lib", .ok 5, [("a.py", .ok 3)]⟩]
    ∧ foldFiles "py" 0 [("a.py", .ok 3), ("b.py", .ok 4)]
      = foldFiles "py" 0 [("b.py", .ok 4), ("a.py", .ok 3)]
    ∧ fpAddN 3 4 = fpAddN 4 3
    ∧ fpAddN 3 4 = 3 + 4 :=
  c3_theorem (.mk "lib" (.ok 5) (.entries [] .nil)) "li" "py"
    [⟨"lib", .ok 5, [("a.py", .ok 3)]⟩, ⟨"other", .ok 11, []⟩]
    [⟨"other", .ok 11, []⟩, ⟨"lib", .ok 5, [("a.py", .ok 3)]⟩]
    [("a.py", .ok 3), ("b.py", .ok 4)] [("b.py", .ok 4), ("a.py", .ok 3)] 3 4
    (List.Perm.swap (⟨"other", .ok 11, []⟩ : WalkEntry)
      (⟨"lib", .ok 5, [("a.py", .ok 3)]⟩ : WalkEntry) [])
    (List.Perm.swap (("b.py", Except.ok 4) : String × Except Unit Nat)
      (("a.py", Except.ok 3) : String × Except Unit Nat) [])
    (by decide)

/-- C4: on an error-free tree the digest is exactly the digest of the
spec-side sum, which descends into EVERY subdirectory unconditionally and
accumulates a directory's mtime only when its base name matches `dir_filter`,
plus the mtimes of the directly contained files matching `file_filter`;
moreover the matcher is case-insensitive (it only sees lower-cased names) and
uses search semantics (a pattern occurring anywhere in the name matches). -/
theorem c4_theorem (t : DirNode) (df ff pat s1 s2 pre post : String)
    (hfree : errFreeDir t = true)
    (hcase : lowerChars s1.data = lowerChars s2.data) :
    calculate_dir_hash t df ff = .ok (get_str_hash (toString (specDirSum df ff t)))
    ∧ reSearchIgnoreCase pat s1 = reSearchIgnoreCase pat s2
    ∧ reSearchIgnoreCase pat (pre ++ (pat ++ post)) = true := by
  refine ⟨?_, ?_, ?_⟩
  · unfold calculate_dir_hash dirHashSum
    rw [foldWalk_dir df ff 0 t hfree]
    simp
  · unfold reSearchIgnoreCase
    rw [hcase]
  · have hdata : (pre ++ (pat ++ post)).data = pre.data ++ (pat.data ++ post.data) := by
      rw [String.data_append, String.data_append]
    unfold reSearchIgnoreCase lowerChars
    rw [hdata, List.map_append, List.map_append]
    exact containsSeq_middle (pat.data.map Char.toLower) (pre.data.map Char.toLower)
      (post.data.map Char.toLower)

/-- C4 witness: the root `root` does not match `script` yet the walk descends
into it and finds the matching subdirectory `scripts` whose mtime and
matching file mtimes are summed; case variants and mid-name occurrences
match. -/
theorem c4_witness :
    calculate_dir_hash
        (.mk "root" (.ok 1) (.entries [("x.py", .ok 2)]
          (.cons (.mk "scripts" (.ok 4) (.entries [("a.py", .ok 8), ("b.txt", .ok 16)] .nil))
            .nil))) "script" "py"
      = .ok (get_str_hash (toString (specDirSum "script" "py"
          (.mk "root" (.ok 1) (.entries [("x.py", .ok 2)]
            (.cons (.mk "scripts" (.ok 4) (.entries [("a.py", .ok 8), ("b.txt", .ok 16)] .nil))
              .nil))))))
    ∧ reSearchIgnoreCase "dir" "SubDir" = reSearchIgnoreCase "dir" "subdir"
    ∧ reSearchIgnoreCase "dir" ("my" ++ ("dir" ++ "s")) = true :=
  c4_theorem
    (.mk "root" (.ok 1) (.entries [("x.py", .ok 2)]
      (.cons (.mk "scripts" (.ok 4) (.entries [("a.py", .ok 8), ("b.txt", .ok 16)] .nil))
        .nil))) "script" "py" "dir" "SubDir" "subdir" "my" "s"
    (by decide) (by decide)

/-- C8: if no visited directory's base name matches `dir_filter` (in
particular on an empty or fully non-matching tree), the accumulated sum stays
`0` and the returned digest is the fixed 32-character MD5 digest of the
decimal string `"0"`. -/
theorem c8_theorem (t : DirNode) (df ff : String)
    (h : ∀ e ∈ walkEntries t, reSearchIgnoreCase df e.rootBase = false) :
    calculate_dir_hash t df ff = .ok (get_str_hash "0")
    ∧ get_str_hash "0" = "cfcd208495d565ef66e7dff9f98764da" := by
  constructor
  · unfold calculate_dir_hash dirHashSum
    rw [foldEntries_no_match df ff 0 _ h]
    rfl
  · decide

/-- C8 witness: a one-directory tree named `lib` with filter `zz` hashes to
the digest of `"0"`. -/
theorem c8_witness :
    calculate_dir_hash (.mk "lib" (.ok 5) (.entries [] .nil)) "zz" "py"
      = .ok (get_str_hash "0")
    ∧ get_str_hash "0" = "cfcd208495d565ef66e7dff9f98764da" :=
  c8_theorem (.mk "lib" (.ok 5) (.entries [] .nil)) "zz" "py" (by decide)

/-! ### Lemmas about the extractor scan -/

/-- Statements whose `targets` contain no matching `Name` are scanned past. -/
theorem extract_param_scan_append (p : String) (pre l : List PyStmt)
    (h : ∀ s ∈ pre, stmtHasMatchingTarget p s = false) :
    extract_param_scan p (pre ++ l) = extract_param_scan p l := by
  induction pre with
  | nil => rfl
  | cons s rest ih =>
    have hs := h s (List.mem_cons_self s rest)
    have hrest : ∀ t ∈ rest, stmtHasMatchingTarget p t = false :=
      fun t ht => h t (List.mem_cons_of_mem s ht)
    cases s with
    | assign targets v =>
      simp only [stmtHasMatchingTarget] at hs
      simpa [extract_param_scan, hs] using ih hrest
    | delete targets =>
      simp only [stmtHasMatchingTarget] at hs
      simpa [extract_param_scan, hs] using ih hrest
    | funcDef fname body => simpa [extract_param_scan] using ih hrest
    | classDef cname body => simpa [extract_param_scan] using ih hrest
    | ifStmt cond body orelse => simpa [extract_param_scan] using ih hrest
    | exprStmt e => simpa [extract_param_scan] using ih hrest

/-- A scan over statements none of which carries a matching target falls off
the loop and returns Python `None`. -/
theorem extract_param_scan_no_match (p : String) (stmts : List PyStmt)
    (h : ∀ s ∈ stmts, stmtHasMatchingTarget p s = false) :
    extract_param_scan p stmts = .ok .noneV := by
  have := extract_param_scan_append p stmts [] h
  rwa [List.append_nil] at this

/-! ### Claims about the script metadata extractor -/

/-- The script `x = 1` followed by `x = 2`, as parsed. -/
def c1Script : ScriptFileParser :=
  { file_addr := "script.py",
    ast_tree := [.assign [.name "x"] (.numInt 1), .assign [.name "x"] (.numInt 2)] }

/-- C1 counterexample: for a script containing `x = 1` followed by `x = 2` at
top level, `extract_param("x")` returns `1` — the FIRST assignment in document
order — not `2` as the claim states: the loop returns at the first statement
whose targets match. -/
theorem c1_counterexample :
    c1Script.extract_param "x" = .ok (.intV 1) ∧
    c1Script.extract_param "x" ≠ .ok (.intV 2) := by
  refine ⟨rfl, fun hc => ?_⟩
  rw [show c1Script.extract_param "x" = .ok (.intV 1) from rfl] at hc
  simp at hc

/-- C1 (amended): the FIRST top-level assignment in document order whose
targets contain the queried name wins: if no earlier top-level statement has a
matching target and the matched assignment's right-hand side evaluates to the
literal `val`, `extract_param` returns `val`, whatever assignments follow. -/
theorem c1_theorem (addr p : String) (pre rest : List PyStmt)
    (targets : List PyExpr) (v : PyExpr) (val : PyValue)
    (hpre : ∀ s ∈ pre, stmtHasMatchingTarget p s = false)
    (ht : targetsMatch targets p = true)
    (hv : literal_eval v = .ok val) :
    (ScriptFileParser.mk addr (pre ++ .assign targets v :: rest)).extract_param p
      = .ok val := by
  unfold ScriptFileParser.extract_param
  show (match extract_param_scan p (pre ++ .assign targets v :: rest) with
    | .ok v => Except.ok v
    | .error err => .error ("Error parsing parameter: " ++ p ++ " in script file for : "
        ++ addr ++ " | " ++ err)) = .ok val
  rw [extract_param_scan_append p pre _ hpre]
  simp [extract_param_scan, ht, hv]

/-- C1 witness: in `def f(): pass` / `x = "hi"` / `x = 2`, querying `x` yields
the string `"hi"` from the first matching assignment. -/
theorem c1_witness :
    (ScriptFileParser.mk "script.py"
        ([PyStmt.funcDef "f" []] ++ PyStmt.assign [PyExpr.name "x"] (PyExpr.strLit "hi")
          :: [PyStmt.assign [PyExpr.name "x"] (PyExpr.numInt 2)])).extract_param "x"
      = .ok (.strV "hi") :=
  c1_theorem "script.py" "x" [.funcDef "f" []] [.assign [.name "x"] (.numInt 2)]
    [.name "x"] (.strLit "hi") (.strV "hi") (by decide) (by decide) rfl

/-- C5: `extract_param` examines only the direct children of the module node:
whatever assignments the bodies of a function definition, a class definition
or an `if` statement contain, a query for any name returns Python `None`
("not found"). -/
theorem c5_theorem (addr p fname cname : String) (cond : PyExpr)
    (fbody cbody thenB elseB : List PyStmt) :
    (ScriptFileParser.mk addr
        [.funcDef fname fbody, .classDef cname cbody, .ifStmt cond thenB elseB]).extract_param p
      = .ok .noneV := rfl

/-- The script `del x`, as parsed. -/
def c6DelScript : ScriptFileParser :=
  { file_addr := "del.py", ast_tree := [.delete [.name "x"]] }

/-- C6 counterexample: the script `del x` contains no top-level assignment to
`x` at all, yet `extract_param("x")` FAILS instead of returning "not found":
a `Delete` node also has a `targets` attribute, so the loop stops at it and
the attribute access `child.value` raises, which the handler wraps. -/
theorem c6_counterexample :
    hasAssignTo "x" c6DelScript.ast_tree = false ∧
    c6DelScript.extract_param "x" =
      .error ("Error parsing parameter: x in script file for : del.py | "
        ++ "'Delete' object has no attribute 'value'") := ⟨rfl, rfl⟩

/-- C6 (amended): if the first top-level statement with a matching target is
an assignment whose right-hand side is not evaluable as a literal,
`extract_param` fails with the wrapping error message (variable name, source
identifier, underlying cause); and if NO top-level statement — neither an
assignment nor a `del` statement — carries a matching target, the query does
not fail and returns "not found" (`None`).  (A top-level `del name` also makes
the query fail, because `Delete` nodes carry `targets` but no `value`.) -/
theorem c6_theorem (addr p e : String) (pre rest stmts : List PyStmt)
    (targets : List PyExpr) (v : PyExpr)
    (h1 : ∀ s ∈ pre, stmtHasMatchingTarget p s = false)
    (h2 : targetsMatch targets p = true)
    (h3 : literal_eval v = .error e)
    (h4 : ∀ s ∈ stmts, stmtHasMatchingTarget p s = false) :
    (ScriptFileParser.mk addr (pre ++ .assign targets v :: rest)).extract_param p
      = .error ("Error parsing parameter: " ++ p ++ " in script file for : "
          ++ addr ++ " | " ++ e)
    ∧ (ScriptFileParser.mk addr stmts).extract_param p = .ok .noneV := by
  constructor
  · unfold ScriptFileParser.extract_param
    show (match extract_param_scan p (pre ++ .assign targets v :: rest) with
      | .ok v => Except.ok v
      | .error err => .error ("Error parsing parameter: " ++ p ++ " in script file for : "
          ++ addr ++ " | " ++ err)) = _
    rw [extract_param_scan_append p pre _ h1]
    simp [extract_param_scan, h2, h3]
  · unfold ScriptFileParser.extract_param
    show (match extract_param_scan p stmts with
      | .ok v => Except.ok v
      | .error err => .error ("Error parsing parameter: " ++ p ++ " in script file for : "
          ++ addr ++ " | " ++ err)) = _
    rw [extract_param_scan_no_match p stmts h4]

/-- C6 witness: `m = f()` makes `extract_param("m")` fail with the wrapped
`malformed string` cause, while a script holding only the expression
statement `1` returns "not found" for `m`. -/
theorem c6_witness :
    (ScriptFileParser.mk "meta.py"
        ([] ++ PyStmt.assign [PyExpr.name "m"] (PyExpr.call (PyExpr.name "f") .nil) :: [])).extract_param "m"
      = .error ("Error parsing parameter: " ++ "m" ++ " in script file for : "
          ++ "meta.py" ++ " | " ++ "malformed string")
    ∧ (ScriptFileParser.mk "meta.py" [PyStmt.exprStmt (PyExpr.numInt 1)]).extract_param "m"
      = .ok .noneV :=
  c6_theorem "meta.py" "m" "malformed string" [] [] [.exprStmt (.numInt 1)]
    [.name "m"] (.call (.name "f") .nil) (by decide) (by decide) rfl (by decide)

/-- C7: when the file's text is read successfully but is not syntactically
valid, construction fails with the `PyRevitException` message wrapping the
source identifier and the underlying syntax error, and the failure is atomic:
no `ScriptFileParser` instance (hence no partial tree) results. -/
theorem c7_theorem (readFile : String → Except String String)
    (astParse : String → Except String (List PyStmt)) (addr text err : String)
    (hr : readFile addr = .ok text) (hp : astParse text = .error err) :
    ScriptFileParser.init readFile astParse addr
      = .error ("Error parsing script file: " ++ addr ++ " | " ++ err)
    ∧ ∀ sp : ScriptFileParser,
        ScriptFileParser.init readFile astParse addr ≠ .ok sp := by
  have h : ScriptFileParser.init readFile astParse addr
      = .error ("Error parsing script file: " ++ addr ++ " | " ++ err) := by
    unfold ScriptFileParser.init
    simp [hr, hp]
  exact ⟨h, fun sp hc => by rw [h] at hc; exact Except.noConfusion hc⟩

/-- C7 witness: a file reading as `x = (` whose parse raises `invalid syntax`
produces the wrapped construction error and no instance. -/
theorem c7_witness :
    ScriptFileParser.init (fun _ => .ok "x = (") (fun _ => .error "invalid syntax") "bad.py"
      = .error ("Error parsing script file: " ++ "bad.py" ++ " | " ++ "invalid syntax")
    ∧ ∀ sp : ScriptFileParser,
        ScriptFileParser.init (fun _ => .ok "x = (") (fun _ => .error "invalid syntax") "bad.py"
          ≠ .ok sp :=
  c7_theorem (fun _ => .ok "x = (") (fun _ => .error "invalid syntax")
    "bad.py" "x = (" "invalid syntax" rfl rfl

/-- C9 counterexample: "no top-level assignment to `x`" does not imply the
"not found" result: the script `del x` has no assignment to `x` at all, yet
`extract_param("x")` raises (the `Delete` node's `targets` match and
`child.value` does not exist), so its outcome differs from that of the script
`x = None` — the two ARE distinguishable. -/
theorem c9_counterexample :
    hasAssignTo "x" [PyStmt.delete [PyExpr.name "x"]] = false
    ∧ (ScriptFileParser.mk "none.py"
        [.assign [.name "x"] (.name "None")]).extract_param "x" = .ok .noneV
    ∧ (ScriptFileParser.mk "onlydel.py"
        [.delete [.name "x"]]).extract_param "x"
      = .error ("Error parsing parameter: x in script file for : onlydel.py | "
          ++ "'Delete' object has no attribute 'value'")
    ∧ (ScriptFileParser.mk "onlydel.py" [.delete [.name "x"]]).extract_param "x"
      ≠ (ScriptFileParser.mk "none.py"
          [.assign [.name "x"] (.name "None")]).extract_param "x" := by
  refine ⟨rfl, rfl, rfl, fun hc => ?_⟩
  rw [show (ScriptFileParser.mk "onlydel.py" [.delete [.name "x"]]).extract_param "x"
      = .error ("Error parsing parameter: x in script file for : onlydel.py | "
          ++ "'Delete' object has no attribute 'value'") from rfl,
    show (ScriptFileParser.mk "none.py"
        [.assign [.name "x"] (.name "None")]).extract_param "x" = .ok .noneV from rfl] at hc
  exact Except.noConfusion hc

/-- C9 (amended): a script whose only top-level assignment is `x = None` and
a script in which no top-level statement — neither an assignment nor a `del`
— carries a target named `x` make `extract_param("x")` return the same value,
Python `None`, the "not found" result.  (A script containing a top-level
`del x`, though it has no assignment to `x`, instead makes the query raise,
so absence of an assignment alone does not guarantee the `None` outcome.) -/
theorem c9_theorem (addr1 addr2 p : String) (stmts : List PyStmt)
    (h : ∀ s ∈ stmts, stmtHasMatchingTarget p s = false) :
    (ScriptFileParser.mk addr1 [.assign [.name p] (.name "None")]).extract_param p
      = .ok .noneV
    ∧ (ScriptFileParser.mk addr2 stmts).extract_param p = .ok .noneV := by
  constructor
  · have ht : targetsMatch [.name p] p = true := by simp [targetsMatch]
    unfold ScriptFileParser.extract_param
    show (match extract_param_scan p [.assign [.name p] (.name "None")] with
      | .ok v => Except.ok v
      | .error err => .error ("Error parsing parameter: " ++ p ++ " in script file for : "
          ++ addr1 ++ " | " ++ err)) = _
    simp [extract_param_scan, ht, literal_eval]
  · unfold ScriptFileParser.extract_param
    show (match extract_param_scan p stmts with
      | .ok v => Except.ok v
      | .error err => .error ("Error parsing parameter: " ++ p ++ " in script file for : "
          ++ addr2 ++ " | " ++ err)) = _
    rw [extract_param_scan_no_match p stmts h]

/-- C9 witness: `x = None` in one script and the unrelated statement `y = 1`
in another both answer `extract_param("x")` with `None`. -/
theorem c9_witness :
    (ScriptFileParser.mk "a.py" [.assign [.name "x"] (.name "None")]).extract_param "x"
      = .ok .noneV
    ∧ (ScriptFileParser.mk "b.py"
        [PyStmt.assign [PyExpr.name "y"] (PyExpr.numInt 1)]).extract_param "x"
      = .ok .noneV :=
  c9_theorem "a.py" "b.py" "x" [.assign [.name "y"] (.numInt 1)] (by decide)

/-- C10: construction wraps a failure to open or read the file in exactly the
same `PyRevitException` message shape as a syntax error — the `except` block
catches every exception — so a missing file and an invalid file are
indistinguishable by error kind. -/
theorem c10_theorem (readA readB : String → Except String String)
    (astParse : String → Except String (List PyStmt)) (addr errA text errB : String)
    (hA : readA addr = .error errA)
    (hB : readB addr = .ok text) (hBp : astParse text = .error errB) :
    ScriptFileParser.init readA astParse addr
      = .error ("Error parsing script file: " ++ addr ++ " | " ++ errA)
    ∧ ScriptFileParser.init readB astParse addr
      = .error ("Error parsing script file: " ++ addr ++ " | " ++ errB) := by
  constructor
  · unfold ScriptFileParser.init
    rw [hA]
  · unfold ScriptFileParser.init
    simp [hB, hBp]

/-- C10 witness: a read failing with `No such file or directory` and a read
succeeding with unparsable text produce the same wrapper message shape. -/
theorem c10_witness :
    ScriptFileParser.init (fun _ => .error "No such file or directory")
        (fun _ => .error "invalid syntax") "gone.py"
      = .error ("Error parsing script file: " ++ "gone.py" ++ " | "
          ++ "No such file or directory")
    ∧ ScriptFileParser.init (fun _ => .ok "x = (")
        (fun _ => .error "invalid syntax") "gone.py"
      = .error ("Error parsing script file: " ++ "gone.py" ++ " | " ++ "invalid syntax") :=
  c10_theorem (fun _ => .error "No such file or directory") (fun _ => .ok "x = (")
    (fun _ => .error "invalid syntax") "gone.py" "No such file or directory"
    "x = (" "invalid syntax" rfl rfl rfl

end PyRevit
